import Mathlib

/-!
Verification of the card-content assembly and field-mapping logic of the
anki-ai-vocab command-line utility, together with the post-processing layer
of its content-generation client.

The embedding follows the TypeScript source:
  * `createAnkiFields` and its helpers come from `src/lib/utils.ts`
    (word variant; the expression variant in the repository duplicates the
    same front/back construction and the identical field-resolution loop).
  * `processEnglishMeanings`, `getWordInfo` and
    `getWordInfoWithSpecificMeanings` come from `src/lib/vocabularyFetcher.ts`.

JavaScript string primitives (`startsWith`, `includes`, `toLowerCase`,
`split`, `endsWith`, truthiness of strings and of possibly-undefined
values) are modelled explicitly on character lists.  `Array.prototype.sort`
with the `localeCompare` comparator is modelled as a stable sort by the
lexicographic order on strings, and `JSON.parse` of the upstream response is
modelled as a sum describing its three possible outcomes (no content thrown
before the parse, a parse failure, or a parsed dynamic record).
-/

set_option maxRecDepth 40000

namespace AnkiVocab

/-- Model of JavaScript `pat` being a leading segment of a character list:
`leadsWith p l` is true when `p` occurs at the very start of `l`. -/
def leadsWith : List Char → List Char → Bool
  | [], _ => true
  | _ :: _, [] => false
  | p :: ps, c :: cs => p == c && leadsWith ps cs

/-- Model of JavaScript `s.startsWith(pat)`. -/
def jsStartsWith (s pat : String) : Bool := leadsWith pat.data s.data

/-- Model of JavaScript `s.endsWith(pat)`. -/
def jsEndsWith (s pat : String) : Bool := leadsWith pat.data.reverse s.data.reverse

/-- Occurrence of `pat` anywhere in a character list. -/
def hasSubList (pat : List Char) : List Char → Bool
  | [] => leadsWith pat []
  | c :: cs => leadsWith pat (c :: cs) || hasSubList pat cs

/-- Model of JavaScript `s.includes(pat)`. -/
def jsIncludes (s pat : String) : Bool := hasSubList pat.data s.data

/-- Model of JavaScript `s.toLowerCase()` (the source only compares ASCII
field-name tokens, for which `Char.toLower` agrees with JavaScript). -/
def jsToLower (s : String) : String := String.mk (s.data.map Char.toLower)

/-- Splitting worker: `acc` holds the current chunk reversed. -/
def jsSplitAux (sep : Char) : List Char → List Char → List String
  | acc, [] => [String.mk acc.reverse]
  | acc, c :: cs =>
    if c = sep then String.mk acc.reverse :: jsSplitAux sep [] cs
    else jsSplitAux sep (c :: acc) cs

/-- Model of JavaScript `s.split(sep)` for a one-character separator: the
empty string yields `[""]`, and adjacent separators yield empty chunks. -/
def jsSplit (s : String) (sep : Char) : List String := jsSplitAux sep [] s.data

/-- Number of (possibly overlapping) occurrences of `pat` in a character
list: one per position at which `pat` leads the remaining suffix. -/
def countOccList (pat : List Char) : List Char → Nat
  | [] => if leadsWith pat [] then 1 else 0
  | c :: cs => (if leadsWith pat (c :: cs) then 1 else 0) + countOccList pat cs

/-- Number of occurrences of the string `pat` inside `s`. -/
def countOcc (pat s : String) : Nat := countOccList pat.data s.data

/-- Insertion step of a stable sort: `x` goes after every element `y`
with `le y x`. -/
def insertSorted (le : α → α → Bool) (x : α) : List α → List α
  | [] => [x]
  | y :: ys => if le y x then y :: insertSorted le x ys else x :: y :: ys

/-- Stable insertion sort, modelling JavaScript `Array.prototype.sort`
with an order-compatible comparator. -/
def sortByLe (le : α → α → Bool) : List α → List α
  | [] => []
  | x :: xs => insertSorted le x (sortByLe le xs)

/-- Lexicographic order on character lists by code point, modelling the
ordering that `localeCompare` induces on the ASCII audio filenames. -/
def charListLe : List Char → List Char → Bool
  | [], _ => true
  | _ :: _, [] => false
  | a :: as, b :: bs => if a.toNat = b.toNat then charListLe as bs else decide (a.toNat < b.toNat)

/-- Lexicographic order on strings. -/
def strLe (a b : String) : Bool := charListLe a.data b.data

/-- Model of JavaScript `array.map((x, i) => f(i, x))`, carrying the index. -/
def mapWithIdx (f : Nat → String → String) : Nat → List String → List String
  | _, [] => []
  | i, x :: xs => f i x :: mapWithIdx f (i + 1) xs

/-- First-of-two choice on options; `optOr a b` is `a` unless `a` is
`none`. -/
def optOr : Option String → Option String → Option String
  | some a, _ => some a
  | none, b => b

/-- JavaScript truthiness of a possibly-undefined string value:
an undefined value and the empty string are falsy. -/
def optTruthy : Option String → Bool
  | some s => !(s == "")
  | none => false

/-- The last element of a list satisfying `p`, if any. -/
def lastSome? (p : String → Bool) : List String → Option String
  | [] => none
  | x :: xs => optOr (lastSome? p xs) (if p x then some x else none)

/-- A dynamic value that the source handles both as a bare string and as an
array of strings (`japanese_meaning`, `english_meaning`,
`example_sentence`). -/
inductive StrOrList where
  | str (s : String)
  | list (l : List String)
deriving DecidableEq

/-- An element of the `idiom` array: either a `{english, japanese}` object
(interface `WordIdiom` in `src/types/index.ts`) or any other value rendered
by string interpolation. -/
inductive IdiomEntry where
  | obj (english japanese : String)
  | raw (s : String)
deriving DecidableEq

/-- Runtime shape of the `idiom` field: absent, a plain string (the source
compares it against the sentinel `"N/A"`), or an array of entries. -/
inductive IdiomField where
  | absent
  | str (s : String)
  | list (entries : List IdiomEntry)
deriving DecidableEq

/-- An element of the `similar_words` array: either a
`{word, difference, difference_japanese}` object (interface `SimilarWord`)
or any other value rendered by string interpolation. -/
inductive SimilarEntry where
  | obj (word difference difference_japanese : String)
  | raw (s : String)
deriving DecidableEq

/-- Runtime shape of the `similar_words` field. -/
inductive SimilarField where
  | absent
  | str (s : String)
  | list (entries : List SimilarEntry)
deriving DecidableEq

/-- The word record consumed by `createAnkiFields`, with the dynamic field
shapes that the source branches on (`Array.isArray` checks and the `"N/A"`
sentinels).  `ipa` is a plain string; the source's `ipa || ''` is the
identity on every string value. -/
structure WordInfo where
  japanese_meaning : StrOrList
  english_meaning : StrOrList
  ipa : String
  idiom : IdiomField
  example_sentence : StrOrList
  similar_words : SimilarField
deriving DecidableEq

/-- Interface `AnkiAudioFile` from `src/types/index.ts`. -/
structure AnkiAudioFile where
  filename : String
  data : String
  fields : List String
deriving DecidableEq

/-- The safe filename key: `word.replace(/[ /\\]/g, '_')`. -/
def sanitizeWord (w : String) : String :=
  String.mk (w.data.map fun c => if c = ' ' ∨ c = '/' ∨ c = '\\' then '_' else c)

/-- The inline sound tag appended to the headword: present when the audio
list is non-empty and some filename starts with `word_<safeWord>`. -/
def wordAudioTagOf (safeWord : String) (audioFiles : List AnkiAudioFile) : String :=
  if 0 < audioFiles.length then
    match audioFiles.find? (fun af => jsStartsWith af.filename ("word_" ++ safeWord)) with
    | some af => " [sound:" ++ af.filename ++ "]"
    | none => ""
  else ""

/-- The front content block (template literal at `utils.ts:73-76`). -/
def frontHtml (word : String) (wordInfo : WordInfo) (audioFiles : List AnkiAudioFile) : String :=
  "\n    <div style=\"font-size: 24px; font-weight: bold;\">" ++ word ++
    wordAudioTagOf (sanitizeWord word) audioFiles ++
    "</div>\n    <div style=\"font-size: 18px; color: #666;\">" ++ wordInfo.ipa ++
    "</div>\n    "

/-- Rendering of a string-or-array value as either the bare string or a
`<ul>` of `<li>` items (used for English and Japanese meanings). -/
def strOrListHtml : StrOrList → String
  | .str s => s
  | .list l =>
    "<ul style=\"margin: 5px 0; padding-left: 20px;\">" ++
      String.join (l.map fun m => "<li>" ++ m ++ "</li>") ++ "</ul>"

/-- The matching example audio assets: filenames starting with
`example_<safeWord>_`, sorted by filename (`localeCompare` comparator). -/
def exampleAudioFilesOf (safeWord : String) (audioFiles : List AnkiAudioFile) :
    List AnkiAudioFile :=
  sortByLe (fun a b => strLe a.filename b.filename)
    (audioFiles.filter fun af => jsStartsWith af.filename ("example_" ++ safeWord ++ "_"))

/-- The inline sound tag for the example at index `i`: emitted when `i` is
within the matching-asset list and that asset's filename is truthy. -/
def exampleAudioTag (files : List AnkiAudioFile) (i : Nat) : String :=
  if i < files.length then
    match files[i]? with
    | some af => if af.filename = "" then "" else " [sound:" ++ af.filename ++ "]"
    | none => ""
  else ""

/-- One `<li>` of the example list. -/
def exampleItem (files : List AnkiAudioFile) (i : Nat) (sentence : String) : String :=
  "<li>" ++ sentence ++ exampleAudioTag files i ++ "</li>"

/-- The example content: a `<ul>` pairing each sentence with the
equal-index sorted asset, or a single sentence paired with asset 0. -/
def exampleHtmlOf (files : List AnkiAudioFile) : StrOrList → String
  | .list examples =>
    "<ul style=\"margin: 5px 0; padding-left: 20px;\">" ++
      String.join (mapWithIdx (exampleItem files) 0 examples) ++ "</ul>"
  | .str s => s ++ exampleAudioTag files 0

/-- The English-meaning section of the back block (`utils.ts:90-94`). -/
def englishSection (wordInfo : WordInfo) : String :=
  "\n    <div style=\"margin-bottom: 15px;\">\n        <strong>English:</strong> " ++
    strOrListHtml wordInfo.english_meaning ++ "\n    </div>\n    "

/-- The example section of the back block (`utils.ts:130-134`). -/
def exampleSection (safeWord : String) (wordInfo : WordInfo)
    (audioFiles : List AnkiAudioFile) : String :=
  "\n    <div style=\"margin-bottom: 15px; margin-top: 20px; padding: 10px; background-color: #f0f0f0; border-radius: 5px;\">\n        <strong>Example:</strong> " ++
    exampleHtmlOf (exampleAudioFilesOf safeWord audioFiles) wordInfo.example_sentence ++
    "\n    </div>\n    "

/-- The divider between the English and Japanese parts (`utils.ts:137-139`). -/
def dividerHtml : String :=
  "\n    <hr style=\"margin: 20px 0; border: 1px solid #ccc;\">\n    "

/-- The Japanese-meaning section of the back block (`utils.ts:152-156`). -/
def japaneseSection (wordInfo : WordInfo) : String :=
  "\n    <div style=\"margin-bottom: 15px;\">\n        <strong>Japanese:</strong> " ++
    strOrListHtml wordInfo.japanese_meaning ++ "\n    </div>\n    "

/-- The guard `wordInfo.idiom && wordInfo.idiom !== 'N/A'`: an absent field
and the falsy empty string fail the first conjunct, the string `"N/A"`
fails the second, and an array always passes both. -/
def idiomCond : IdiomField → Bool
  | .absent => false
  | .str s => !(s == "") && !(s == "N/A")
  | .list _ => true

/-- Rendering of one idiom entry (`utils.ts:164-171`). -/
def idiomEntryHtml : IdiomEntry → String
  | .obj english japanese =>
    "<li>" ++ english ++
      "<br><span style=\x27color: #666; margin-left: 20px;\x27>→ " ++ japanese ++
      "</span></li>"
  | .raw s => "<li>" ++ s ++ "</li>"

/-- The idiom HTML inside the guard: a `<ul>` of entries or the bare
string.  The `absent` case is unreachable behind `idiomCond`. -/
def idiomHtmlOf : IdiomField → String
  | .absent => ""
  | .str s => s
  | .list entries =>
    "<ul style=\"margin: 5px 0; padding-left: 20px;\">" ++
      String.join (entries.map idiomEntryHtml) ++ "</ul>"

/-- The idiom block appended when the guard passes (`utils.ts:177-181`). -/
def idiomBlockHtml (fld : IdiomField) : String :=
  "\n        <div style=\"margin-bottom: 15px;\">\n            <strong>Idiom/Phrase:</strong> " ++
    idiomHtmlOf fld ++ "\n        </div>\n        "

/-- The idiom section: the block when the guard passes, else nothing. -/
def idiomSection (fld : IdiomField) : String :=
  if idiomCond fld then idiomBlockHtml fld else ""

/-- The guard `wordInfo.similar_words && wordInfo.similar_words !== 'N/A'`. -/
def similarCond : SimilarField → Bool
  | .absent => false
  | .str s => !(s == "") && !(s == "N/A")
  | .list _ => true

/-- Rendering of one similar-word entry (`utils.ts:190-199`); the
`difference || ''` fallbacks of the source are the identity on strings. -/
def similarEntryHtml : SimilarEntry → String
  | .obj word difference difference_japanese =>
    "<li><strong>" ++ word ++ "</strong>: " ++ difference ++ "<br>" ++
      "<span style=\x27color: #666; margin-left: 20px;\x27>→ " ++ difference_japanese ++
      "</span></li>"
  | .raw s => "<li>" ++ s ++ "</li>"

/-- The similar-words HTML inside the guard. -/
def similarHtmlOf : SimilarField → String
  | .absent => ""
  | .str s => s
  | .list entries =>
    "<ul style=\"margin: 5px 0; padding-left: 20px;\">" ++
      String.join (entries.map similarEntryHtml) ++ "</ul>"

/-- The similar-words block appended when the guard passes
(`utils.ts:206-210`). -/
def similarBlockHtml (fld : SimilarField) : String :=
  "\n        <div style=\"margin-bottom: 15px; margin-top: 20px; padding: 10px; background-color: #f9f9f9; border-radius: 5px; border: 1px solid #e0e0e0;\">\n            <strong>Similar Words & Differences:</strong> " ++
    similarHtmlOf fld ++ "\n        </div>\n        "

/-- The similar-words section: the block when the guard passes, else
nothing. -/
def similarSection (fld : SimilarField) : String :=
  if similarCond fld then similarBlockHtml fld else ""

/-- The back content block: the successive `back += ...` appends of
`utils.ts:90-211` in order. -/
def backHtml (safeWord : String) (wordInfo : WordInfo)
    (audioFiles : List AnkiAudioFile) : String :=
  englishSection wordInfo ++ exampleSection safeWord wordInfo audioFiles ++
    dividerHtml ++ japaneseSection wordInfo ++ idiomSection wordInfo.idiom ++
    similarSection wordInfo.similar_words

/-- The front-role tokens scanned for in field names (`utils.ts:224`). -/
def frontTokens : List String := ["front", "question", "text1", "expression", "word"]

/-- The back-role tokens scanned for in field names (`utils.ts:226`). -/
def backTokens : List String := ["back", "answer", "text2", "meaning", "definition"]

/-- Whether a field name matches a front-role token, case-insensitively. -/
def isFrontName (field : String) : Bool :=
  frontTokens.any fun x => jsIncludes (jsToLower field) x

/-- Whether a field name matches a back-role token, case-insensitively. -/
def isBackName (field : String) : Bool :=
  backTokens.any fun x => jsIncludes (jsToLower field) x

/-- Whether a field name matches a back-role token but no front-role token
(the `else if` of the scan loop gives front matches priority). -/
def isBackOnlyName (field : String) : Bool := !isFrontName field && isBackName field

/-- One iteration of the scan loop of `utils.ts:222-229`: a front match
overwrites the front candidate, otherwise a back match overwrites the back
candidate. -/
def scanStep (acc : Option String × Option String) (field : String) :
    Option String × Option String :=
  if isFrontName field then (some field, acc.2)
  else if isBackName field then (acc.1, some field)
  else acc

/-- The whole scan loop over `fieldNames`, starting from two undefined
candidates. -/
def scanFrontBack (fieldNames : List String) : Option String × Option String :=
  fieldNames.foldl scanStep (none, none)

/-- The front field after the fallback `if (!frontField) frontField =
fieldNames[0]` (`utils.ts:232-234`). -/
def resolvedFront (fieldNames : List String) : Option String :=
  let s := (scanFrontBack fieldNames).1
  if optTruthy s then s else fieldNames[0]?

/-- The back field after the fallback `if (!backField) backField =
fieldNames.length > 1 ? fieldNames[1] : fieldNames[0]` (`utils.ts:235-237`). -/
def resolvedBack (fieldNames : List String) : Option String :=
  let s := (scanFrontBack fieldNames).2
  if optTruthy s then s
  else if 1 < fieldNames.length then fieldNames[1]? else fieldNames[0]?

/-- The two guarded insertions of `utils.ts:239-244`: the front field is
written when truthy, the back field when truthy and different from the
front field. -/
def emitFields (front back : String) (frontField backField : Option String) :
    List (String × String) :=
  (match frontField with
   | some f => if f = "" then [] else [(f, front)]
   | none => []) ++
  (match backField with
   | some b => if b = "" then [] else if frontField = some b then [] else [(b, back)]
   | none => [])

/-- Function `createAnkiFields` from `src/lib/utils.ts:54-254`: the returned
`Record<string, string>` is modelled as an association list in insertion
order. -/
def createAnkiFields (word : String) (wordInfo : WordInfo)
    (fieldNames : List String) (audioFiles : List AnkiAudioFile) :
    List (String × String) :=
  let front := frontHtml word wordInfo audioFiles
  let back := backHtml (sanitizeWord word) wordInfo audioFiles
  if 2 ≤ fieldNames.length then
    emitFields front back (resolvedFront fieldNames) (resolvedBack fieldNames)
  else
    match fieldNames[0]? with
    | some fieldName => if fieldName = "" then [] else [(fieldName, front ++ "\n" ++ back)]
    | none => []

/-- The part-of-speech tagging of one English definition
(`vocabularyFetcher.ts:557-609`, `processEnglishMeanings` body): an entry
already starting with `[` is returned unchanged; otherwise a tag is
inferred from ordered heuristics on the lowercased text. -/
def tagMeaning (meaning : String) : String :=
  if jsStartsWith meaning "[" then meaning
  else if jsStartsWith (jsToLower meaning) "to " ||
      jsStartsWith (jsToLower meaning) "to be " then
    "[verb] " ++ meaning
  else if jsStartsWith (jsToLower meaning) "a " ||
      jsStartsWith (jsToLower meaning) "an " ||
      jsStartsWith (jsToLower meaning) "the " then
    "[noun] " ++ meaning
  else if (["having ", "being ", "showing ", "causing ", "pleasing ", "making "] :
      List String).any (fun w => jsStartsWith (jsToLower meaning) w) then
    "[adjective] " ++ meaning
  else if ([" act of ", " process of ", " state of ", " quality of "] :
      List String).any (fun w => jsIncludes (jsToLower meaning) w) then
    "[noun] " ++ meaning
  else if (match (jsSplit (jsToLower meaning) ' ').getLast? with
           | some t => jsEndsWith t "ly"
           | none => false) then
    "[adverb] " ++ meaning
  else if (jsSplit meaning ' ').length ≤ 5 && !jsIncludes meaning "." &&
      !jsIncludes meaning "," && !jsIncludes meaning ":" && !jsIncludes meaning ";" then
    "[adjective] " ++ meaning
  else
    "[definition] " ++ meaning

/-- Function `processEnglishMeanings`: the tagging map over the meaning list. -/
def processEnglishMeanings (meanings : List String) : List String :=
  meanings.map tagMeaning

/-- The five part-of-speech tags named by the specification. -/
def fiveTags : List String :=
  ["[noun]", "[verb]", "[adjective]", "[adverb]", "[definition]"]

/-- Runtime shape of one key of the parsed upstream JSON object: absent, a
string, or an array of strings. -/
inductive DynField where
  | absent
  | str (s : String)
  | strList (l : List String)
deriving DecidableEq

/-- The value produced by `JSON.parse(content) as WordInfo`
(`vocabularyFetcher.ts:451`): the cast performs no validation, so every key
may be absent or of an unexpected shape. -/
structure DynWordInfo where
  japanese_meaning : DynField
  english_meaning : DynField
  ipa : DynField
  idiom : IdiomField
  example_sentence : DynField
  similar_words : SimilarField
deriving DecidableEq

/-- Outcome of the upstream round trip as observed by `getWordInfo`:
`response.choices[0]?.message?.content` was falsy, or `JSON.parse` threw
with the given message, or it produced a dynamic record. -/
inductive UpstreamContent where
  | noContent
  | malformed (errMessage : String)
  | parsed (value : DynWordInfo)
deriving DecidableEq

/-- The `OpenAIError` of `src/types/index.ts` (the spec's
`ContentGenerationError`). -/
structure OpenAIError where
  message : String
deriving DecidableEq

/-- The conditional post-processing of `vocabularyFetcher.ts:454-458`: the
meanings are tagged only when `english_meaning` is present and an array. -/
def postProcessWordInfo (data : DynWordInfo) : DynWordInfo :=
  match data.english_meaning with
  | .strList l => { data with english_meaning := .strList (processEnglishMeanings l) }
  | _ => data

/-- Function `getWordInfo` after the upstream call (`vocabularyFetcher.ts:446-470`):
a falsy content and a parse failure are thrown as `OpenAIError` (and
re-wrapped by the surrounding catch), while any parsed record is returned
after the conditional tagging, with no shape validation. -/
def getWordInfoResult : UpstreamContent → Except OpenAIError DynWordInfo
  | .noContent =>
    .error ⟨"Error fetching word information from OpenAI: No content received from OpenAI"⟩
  | .malformed errMessage =>
    .error ⟨"Error fetching word information from OpenAI: " ++ errMessage⟩
  | .parsed data => .ok (postProcessWordInfo data)

/-- Function `getWordInfoWithSpecificMeanings` after the upstream call
(`vocabularyFetcher.ts:524-545`): on success the record's
`japanese_meaning` is overwritten with the caller-supplied list, the
meanings are conditionally tagged, and `idiom` is forced to `"N/A"`. -/
def getWordInfoWithSpecificMeaningsResult (japaneseMeanings : List String) :
    UpstreamContent → Except OpenAIError DynWordInfo
  | .noContent =>
    .error ⟨"Error fetching word information with specific meanings from OpenAI: No content received from OpenAI"⟩
  | .malformed errMessage =>
    .error ⟨"Error fetching word information with specific meanings from OpenAI: " ++ errMessage⟩
  | .parsed data =>
    .ok { postProcessWordInfo
            { data with japanese_meaning := .strList japaneseMeanings } with
          idiom := IdiomField.str "N/A" }

/-- Conformance of a dynamic record to the `WordInfo` interface of
`src/types/index.ts:59-66`: the three list fields are string arrays, `ipa`
is a string, and `idiom` and `similar_words` are arrays or the `"N/A"`
sentinel. -/
def conformsWordInfo (d : DynWordInfo) : Bool :=
  (match d.japanese_meaning with | .strList _ => true | _ => false) &&
  (match d.english_meaning with | .strList _ => true | _ => false) &&
  (match d.ipa with | .str _ => true | _ => false) &&
  (match d.idiom with | .list _ => true | .str s => s == "N/A" | .absent => false) &&
  (match d.example_sentence with | .strList _ => true | _ => false) &&
  (match d.similar_words with | .list _ => true | .str s => s == "N/A" | .absent => false)

/-- A small concrete word record used by the concrete-input theorems. -/
def infoFix : WordInfo where
  japanese_meaning := .str "JP"
  english_meaning := .str "[noun] EN"
  ipa := ""
  idiom := .str "N/A"
  example_sentence := .str "Example sentence."
  similar_words := .str "N/A"

/-- A concrete record whose example sentences form a two-element list. -/
def infoFixList : WordInfo where
  japanese_meaning := .str "JP"
  english_meaning := .str "[noun] EN"
  ipa := ""
  idiom := .str "N/A"
  example_sentence := .list ["E1", "E2"]
  similar_words := .str "N/A"

/-- The headword audio asset of the specification's scenario. -/
def wordAssetFix : AnkiAudioFile := ⟨"word_test.mp3", "", []⟩

/-- The first example audio asset of the specification's scenario. -/
def exampleAsset1 : AnkiAudioFile := ⟨"example_test_1.mp3", "", []⟩

/-- The second example audio asset of the specification's scenario. -/
def exampleAsset2 : AnkiAudioFile := ⟨"example_test_2.mp3", "", []⟩

/-- The audio-asset list of the specification's scenario. -/
def audioFix : List AnkiAudioFile := [wordAssetFix, exampleAsset1, exampleAsset2]

/-- A parsed upstream record with every key absent: legal JSON (for
example the object with none of the expected keys) that does not conform
to the `WordInfo` interface. -/
def emptyDyn : DynWordInfo where
  japanese_meaning := .absent
  english_meaning := .absent
  ipa := .absent
  idiom := .absent
  example_sentence := .absent
  similar_words := .absent

/-- The record that the specific-meanings fetch returns for the parsed
`emptyDyn` upstream value and the caller-supplied list `["J1"]`. -/
def specificDynFix : DynWordInfo :=
  { emptyDyn with japanese_meaning := DynField.strList ["J1"], idiom := IdiomField.str "N/A" }

/-! Shared lemmas about the modelled primitives. -/

theorem optOr_none_right (a : Option String) : optOr a none = a := by
  cases a <;> rfl

theorem optOr_collapse (a c : Option String) (x : String) :
    optOr (optOr a (some x)) c = optOr a (some x) := by
  cases a <;> rfl

theorem lastSome?_prop {p : String → Bool} {l : List String} {x : String}
    (h : lastSome? p l = some x) : p x = true := by
  induction l with
  | nil => simp [lastSome?] at h
  | cons y ys ih =>
    rw [lastSome?] at h
    cases hy : lastSome? p ys with
    | some z =>
      rw [hy] at h
      simp only [optOr] at h
      cases h
      exact ih hy
    | none =>
      rw [hy] at h
      simp only [optOr] at h
      by_cases hp : p y = true
      · rw [if_pos hp] at h
        cases h
        exact hp
      · rw [if_neg hp] at h
        cases h

theorem lastSome?_mem {p : String → Bool} {l : List String} {x : String}
    (h : lastSome? p l = some x) : x ∈ l := by
  induction l with
  | nil => simp [lastSome?] at h
  | cons y ys ih =>
    rw [lastSome?] at h
    cases hy : lastSome? p ys with
    | some z =>
      rw [hy] at h
      simp only [optOr] at h
      cases h
      exact List.mem_cons_of_mem y (ih hy)
    | none =>
      rw [hy] at h
      simp only [optOr] at h
      by_cases hp : p y = true
      · rw [if_pos hp] at h
        cases h
        exact List.mem_cons_self x ys
      · rw [if_neg hp] at h
        cases h

theorem scanFoldl (l : List String) :
    ∀ acc : Option String × Option String,
      l.foldl scanStep acc =
        (optOr (lastSome? isFrontName l) acc.1,
         optOr (lastSome? isBackOnlyName l) acc.2) := by
  induction l with
  | nil =>
    intro acc
    simp [lastSome?, optOr]
  | cons x xs ih =>
    intro acc
    rw [List.foldl_cons, ih]
    cases hF : isFrontName x
    · cases hB : isBackName x
      · simp [scanStep, hF, hB, lastSome?, isBackOnlyName, optOr_none_right]
      · simp [scanStep, hF, hB, lastSome?, isBackOnlyName, optOr_none_right, optOr_collapse]
    · simp [scanStep, hF, lastSome?, isBackOnlyName, optOr_none_right, optOr_collapse]

theorem scanFrontBack_eq (l : List String) :
    scanFrontBack l = (lastSome? isFrontName l, lastSome? isBackOnlyName l) := by
  rw [scanFrontBack, scanFoldl]
  simp [optOr_none_right]

theorem mem_of_getElemOpt {α : Type} {l : List α} {i : Nat} {x : α}
    (h : l[i]? = some x) : x ∈ l := by
  induction l generalizing i with
  | nil => simp at h
  | cons y ys ih =>
    cases i with
    | zero =>
      simp only [List.getElem?_cons_zero, Option.some.injEq] at h
      exact h ▸ List.mem_cons_self y ys
    | succ j =>
      rw [List.getElem?_cons_succ] at h
      exact List.mem_cons_of_mem y (ih h)

theorem resolvedFront_mem {l : List String} {f : String}
    (h : resolvedFront l = some f) : f ∈ l := by
  simp only [resolvedFront] at h
  by_cases ht : optTruthy (scanFrontBack l).1 = true
  · rw [if_pos ht] at h
    rw [scanFrontBack_eq] at h
    exact lastSome?_mem h
  · rw [if_neg ht] at h
    exact mem_of_getElemOpt h

theorem resolvedBack_mem {l : List String} {b : String}
    (h : resolvedBack l = some b) : b ∈ l := by
  simp only [resolvedBack] at h
  by_cases ht : optTruthy (scanFrontBack l).2 = true
  · rw [if_pos ht] at h
    rw [scanFrontBack_eq] at h
    exact lastSome?_mem h
  · rw [if_neg ht] at h
    by_cases hl : 1 < l.length
    · rw [if_pos hl] at h
      exact mem_of_getElemOpt h
    · rw [if_neg hl] at h
      exact mem_of_getElemOpt h

theorem mapWithIdx_getElemOpt (f : Nat → String → String) (l : List String) :
    ∀ n i : Nat, (mapWithIdx f n l)[i]? = Option.map (fun s => f (n + i) s) l[i]? := by
  induction l with
  | nil =>
    intro n i
    simp [mapWithIdx]
  | cons x xs ih =>
    intro n i
    cases i with
    | zero => simp [mapWithIdx]
    | succ j =>
      simp only [mapWithIdx, List.getElem?_cons_succ]
      rw [ih (n + 1) j]
      have hn : n + 1 + j = n + (j + 1) := by omega
      rw [hn]

theorem leadsWith_refl_append (p t : List Char) : leadsWith p (p ++ t) = true := by
  induction p with
  | nil => rfl
  | cons c cs ih => simp [leadsWith, ih]

theorem countOccList_pos {pat l : List Char} (h : leadsWith pat l = true) :
    1 ≤ countOccList pat l := by
  cases l with
  | nil =>
    unfold countOccList
    rw [if_pos h]
  | cons c cs =>
    unfold countOccList
    rw [if_pos h]
    omega

theorem countOccList_le_cons (pat : List Char) (c : Char) (cs : List Char) :
    countOccList pat cs ≤ countOccList pat (c :: cs) := by
  conv_rhs => unfold countOccList
  split <;> omega

theorem countOccList_append_pos (pat pre suf : List Char) :
    1 ≤ countOccList pat (pre ++ (pat ++ suf)) := by
  induction pre with
  | nil => exact countOccList_pos (leadsWith_refl_append pat suf)
  | cons c cs ih => exact le_trans ih (countOccList_le_cons pat c (cs ++ (pat ++ suf)))

theorem str_append_empty (s : String) : s ++ "" = s := by
  apply String.ext
  rw [String.data_append]
  exact List.append_nil s.data

theorem tagMeaning_startsWith (m : String) : jsStartsWith (tagMeaning m) "[" = true := by
  unfold tagMeaning
  split
  · assumption
  · repeat' split
    all_goals rfl

theorem tagMeaning_cases (m : String) :
    tagMeaning m = m ∨ ∃ t, t ∈ fiveTags ∧ tagMeaning m = t ++ " " ++ m := by
  unfold tagMeaning
  split
  · exact Or.inl rfl
  · repeat' split
    · exact Or.inr ⟨"[verb]", by decide, rfl⟩
    · exact Or.inr ⟨"[noun]", by decide, rfl⟩
    · exact Or.inr ⟨"[adjective]", by decide, rfl⟩
    · exact Or.inr ⟨"[noun]", by decide, rfl⟩
    · exact Or.inr ⟨"[adverb]", by decide, rfl⟩
    · exact Or.inr ⟨"[adjective]", by decide, rfl⟩
    · exact Or.inr ⟨"[definition]", by decide, rfl⟩

theorem createAnkiFields_two (w : String) (info : WordInfo) (afs : List AnkiAudioFile)
    (fieldNames : List String) (f b : String) (h2 : 2 ≤ fieldNames.length)
    (hf0 : f ≠ "") (hb0 : b ≠ "") (hfb : ¬f = b)
    (hrf : resolvedFront fieldNames = some f) (hrb : resolvedBack fieldNames = some b) :
    createAnkiFields w info fieldNames afs =
      [(f, frontHtml w info afs), (b, backHtml (sanitizeWord w) info afs)] := by
  simp only [createAnkiFields]
  rw [if_pos h2, hrf, hrb]
  simp only [emitFields]
  rw [if_neg hf0, if_neg hb0, if_neg (fun hc : some f = some b => hfb (Option.some.inj hc))]
  rfl

theorem createAnkiFields_collide (w : String) (info : WordInfo) (afs : List AnkiAudioFile)
    (fieldNames : List String) (f : String) (h2 : 2 ≤ fieldNames.length)
    (hf0 : f ≠ "")
    (hrf : resolvedFront fieldNames = some f) (hrb : resolvedBack fieldNames = some f) :
    createAnkiFields w info fieldNames afs = [(f, frontHtml w info afs)] := by
  simp only [createAnkiFields]
  rw [if_pos h2, hrf, hrb]
  simp [emitFields, hf0]

/-- Claim C1, counterexample: with `fieldNames = ["Front", "Question", "Back"]`
both `"Front"` and `"Question"` match front-role tokens, yet the front
content is assigned to `"Question"` and no entry at all is emitted under
the earliest match `"Front"` — the scan loop overwrites, so the first
match does not win. -/
theorem c1_first_match_counterexample :
    (createAnkiFields "test" infoFix ["Front", "Question", "Back"] []).lookup "Front" = none ∧
    (createAnkiFields "test" infoFix ["Front", "Question", "Back"] []).lookup "Question" =
      some (frontHtml "test" infoFix []) :=
  ⟨rfl, rfl⟩

/-- Claim C1, amended: when `fieldNames` has at least two entries, the LAST
field matching a front-role token receives the front block, and the LAST
field matching a back-role token while matching no front-role token
receives the back block (each loop iteration overwrites the previous
match, and a field matching both roles counts as front only). -/
theorem c1_last_match_wins (w : String) (info : WordInfo) (afs : List AnkiAudioFile)
    (fieldNames : List String) (f b : String)
    (h2 : 2 ≤ fieldNames.length)
    (hf : lastSome? isFrontName fieldNames = some f)
    (hb : lastSome? isBackOnlyName fieldNames = some b) :
    (createAnkiFields w info fieldNames afs).lookup f = some (frontHtml w info afs) ∧
    (createAnkiFields w info fieldNames afs).lookup b =
      some (backHtml (sanitizeWord w) info afs) := by
  have hfp : isFrontName f = true := lastSome?_prop hf
  have hbp : isBackOnlyName b = true := lastSome?_prop hb
  have hbf : isFrontName b = false := by
    have hsplit := (Bool.and_eq_true _ _).mp hbp
    simpa using hsplit.1
  have hf0 : f ≠ "" := by
    intro hm
    subst hm
    exact absurd hfp (by decide)
  have hb0 : b ≠ "" := by
    intro hm
    subst hm
    exact absurd hbp (by decide)
  have hfb : ¬f = b := by
    intro hm
    subst hm
    simp [hfp] at hbf
  have hrf : resolvedFront fieldNames = some f := by
    simp only [resolvedFront, scanFrontBack_eq, hf]
    simp [optTruthy, hf0]
  have hrb : resolvedBack fieldNames = some b := by
    simp only [resolvedBack, scanFrontBack_eq, hb]
    simp [optTruthy, hb0]
  rw [createAnkiFields_two w info afs fieldNames f b h2 hf0 hb0 hfb hrf hrb]
  have hbeq : (b == f) = false := by
    exact beq_eq_false_iff_ne.mpr fun hc => hfb hc.symm
  constructor
  · simp [List.lookup]
  · simp [List.lookup, hbeq]

/-- Claim C1, witness: a concrete field list in which the scan's last
front match is `"Question"` and its last back-only match is `"Answer"`,
and those two fields receive the front and back blocks. -/
theorem c1_last_match_wins_witness :
    lastSome? isFrontName ["A", "Front", "Question", "B", "Back", "Answer"] = some "Question" ∧
    lastSome? isBackOnlyName ["A", "Front", "Question", "B", "Back", "Answer"] = some "Answer" ∧
    ((createAnkiFields "test" infoFix ["A", "Front", "Question", "B", "Back", "Answer"]
        []).lookup "Question" = some (frontHtml "test" infoFix []) ∧
     (createAnkiFields "test" infoFix ["A", "Front", "Question", "B", "Back", "Answer"]
        []).lookup "Answer" = some (backHtml (sanitizeWord "test") infoFix [])) :=
  ⟨by decide, by decide,
    c1_last_match_wins "test" infoFix [] ["A", "Front", "Question", "B", "Back", "Answer"]
      "Question" "Answer" (by decide) (by decide) (by decide)⟩

/-- Claim C2, counterexample: with the legally-shaped distinct field list
`["Foo", "Word"]`, the front role resolves to `"Word"` and the back role
falls back to `fieldNames[1] = "Word"`, which collides with the front
field; the emitted map holds only the front block, and the back block
(recognisable by its `Japanese:` heading, which the front block never
contains) is dropped. -/
theorem c2_back_dropped_counterexample :
    createAnkiFields "test" infoFix ["Foo", "Word"] [] =
      [("Word", frontHtml "test" infoFix [])] ∧
    jsIncludes (backHtml (sanitizeWord "test") infoFix []) "Japanese:" = true ∧
    jsIncludes (frontHtml "test" infoFix []) "Japanese:" = false :=
  ⟨rfl, rfl, rfl⟩

/-- Claim C2, amended: for two or more non-empty field names, the engine
emits the front block under the resolved front field and the back block
under the resolved back field — except that when the two resolved fields
coincide, only the front block is emitted and the back block is dropped. -/
theorem c2_resolved_assignment (w : String) (info : WordInfo) (afs : List AnkiAudioFile)
    (fieldNames : List String) (f b : String)
    (h2 : 2 ≤ fieldNames.length)
    (hne : ∀ x ∈ fieldNames, x ≠ "")
    (hf : resolvedFront fieldNames = some f)
    (hb : resolvedBack fieldNames = some b) :
    createAnkiFields w info fieldNames afs =
      if b = f then [(f, frontHtml w info afs)]
      else [(f, frontHtml w info afs), (b, backHtml (sanitizeWord w) info afs)] := by
  have hf0 : f ≠ "" := hne f (resolvedFront_mem hf)
  have hb0 : b ≠ "" := hne b (resolvedBack_mem hb)
  by_cases hfb : b = f
  · subst hfb
    rw [if_pos rfl]
    exact createAnkiFields_collide w info afs fieldNames b h2 hb0 hf hb
  · rw [if_neg hfb]
    exact createAnkiFields_two w info afs fieldNames f b h2 hf0 hb0
      (fun hc => hfb hc.symm) hf hb

/-- Claim C2, witness: with `["Front", "Back"]` the resolved fields differ
and both blocks are emitted. -/
theorem c2_resolved_assignment_witness :
    resolvedFront ["Front", "Back"] = some "Front" ∧
    resolvedBack ["Front", "Back"] = some "Back" ∧
    createAnkiFields "test" infoFix ["Front", "Back"] [] =
      (if "Back" = "Front" then [("Front", frontHtml "test" infoFix [])]
       else [("Front", frontHtml "test" infoFix []),
             ("Back", backHtml (sanitizeWord "test") infoFix [])]) :=
  ⟨by decide, by decide,
    c2_resolved_assignment "test" infoFix [] ["Front", "Back"] "Front" "Back"
      (by decide) (by decide) (by decide) (by decide)⟩

/-- Claim C3, counterexample: a parsed JSON object with none of the
required keys is returned as-is by the fetch (the `as WordInfo` cast does
not validate), so a non-conforming record reaches the caller instead of a
`ContentGenerationError`. -/
theorem c3_nonconforming_counterexample :
    getWordInfoResult (UpstreamContent.parsed emptyDyn) = Except.ok emptyDyn ∧
    conformsWordInfo emptyDyn = false :=
  ⟨rfl, rfl⟩

/-- Claim C3, amended: the fetch fails with an `OpenAIError` exactly when
the upstream call returns no content or content that `JSON.parse` rejects;
every successfully parsed value — conforming to the record structure or
not — is returned (after conditional meaning post-processing) rather than
rejected. -/
theorem c3_failure_boundary (u : UpstreamContent) :
    ((∃ r, getWordInfoResult u = Except.ok r) ↔ ∃ d, u = UpstreamContent.parsed d) ∧
    ((∃ e, getWordInfoResult u = Except.error e) ↔
      (u = UpstreamContent.noContent ∨ ∃ msg, u = UpstreamContent.malformed msg)) := by
  cases u <;> simp [getWordInfoResult]

/-- Claim C4, counterexample: an upstream entry already starting with `[`
is trusted unchanged, so the post-processed entry `"[misc] x"` is prefixed
with none of the five part-of-speech tags the claim allows. -/
theorem c4_foreign_tag_counterexample :
    processEnglishMeanings ["[misc] x"] = ["[misc] x"] ∧
    (fiveTags.all fun t => !jsStartsWith "[misc] x" t) = true :=
  ⟨rfl, rfl⟩

/-- Claim C4, amended: after post-processing every entry starts with a
bracket, and every output entry is either an input entry that already
started with `[` (trusted as-is, whatever its tag) or an input entry with
one of the five inferred tags prepended. -/
theorem c4_bracket_tagging (l : List String) (m' : String)
    (h : m' ∈ processEnglishMeanings l) :
    jsStartsWith m' "[" = true ∧
    ∃ m, m ∈ l ∧ (m' = m ∨ ∃ t, t ∈ fiveTags ∧ m' = t ++ " " ++ m) := by
  obtain ⟨m, hm, rfl⟩ := List.mem_map.mp h
  refine ⟨tagMeaning_startsWith m, m, hm, ?_⟩
  rcases tagMeaning_cases m with h1 | h2
  · exact Or.inl h1
  · exact Or.inr h2

/-- Claim C4, witness: the untagged entry `"happy"` is returned as
`"[adjective] happy"`, which starts with a bracket and carries one of the
five tags. -/
theorem c4_bracket_tagging_witness :
    "[adjective] happy" ∈ processEnglishMeanings ["happy"] ∧
    (jsStartsWith "[adjective] happy" "[" = true ∧
      ∃ m, m ∈ ["happy"] ∧
        ("[adjective] happy" = m ∨
          ∃ t, t ∈ fiveTags ∧ "[adjective] happy" = t ++ " " ++ m)) :=
  ⟨List.mem_singleton.mpr rfl,
    c4_bracket_tagging ["happy"] "[adjective] happy" (List.mem_singleton.mpr rfl)⟩

/-- Claim C5: the i-th example sentence is rendered with the inline sound
reference of the i-th matching asset (filenames starting with
`example_<key>_`, sorted lexicographically by filename), sentences at or
beyond the number of matching assets render with no sound reference, and
in the concrete scenario with assets `word_test.mp3`, `example_test_1.mp3`
and `example_test_2.mp3` sentence 0 pairs with `example_test_1.mp3` and
sentence 1 with `example_test_2.mp3`. -/
theorem c5_example_audio_pairing (key : String) (afs : List AnkiAudioFile)
    (examples : List String) (i : Nat) (ex : String)
    (hi : examples[i]? = some ex) :
    (mapWithIdx (exampleItem (exampleAudioFilesOf key afs)) 0 examples)[i]? =
      some ("<li>" ++ ex ++ exampleAudioTag (exampleAudioFilesOf key afs) i ++ "</li>") ∧
    (∀ j, (exampleAudioFilesOf key afs).length ≤ j →
      exampleAudioTag (exampleAudioFilesOf key afs) j = "") ∧
    exampleAudioFilesOf "test" audioFix = [exampleAsset1, exampleAsset2] ∧
    exampleAudioTag (exampleAudioFilesOf "test" audioFix) 0 = " [sound:example_test_1.mp3]" ∧
    exampleAudioTag (exampleAudioFilesOf "test" audioFix) 1 = " [sound:example_test_2.mp3]" := by
  refine ⟨?_, ?_, rfl, rfl, rfl⟩
  · rw [mapWithIdx_getElemOpt (exampleItem (exampleAudioFilesOf key afs)) examples 0 i, hi]
    simp [exampleItem]
  · intro j hj
    unfold exampleAudioTag
    exact if_neg (Nat.not_lt.mpr hj)

/-- Claim C5, witness: the pairing theorem applied to the concrete
two-sentence scenario at index 0. -/
theorem c5_example_audio_pairing_witness :
    (["E1", "E2"] : List String)[0]? = some "E1" ∧
    ((mapWithIdx (exampleItem (exampleAudioFilesOf "test" audioFix)) 0 ["E1", "E2"])[0]? =
      some ("<li>" ++ "E1" ++ exampleAudioTag (exampleAudioFilesOf "test" audioFix) 0 ++ "</li>") ∧
    (∀ j, (exampleAudioFilesOf "test" audioFix).length ≤ j →
      exampleAudioTag (exampleAudioFilesOf "test" audioFix) j = "") ∧
    exampleAudioFilesOf "test" audioFix = [exampleAsset1, exampleAsset2] ∧
    exampleAudioTag (exampleAudioFilesOf "test" audioFix) 0 = " [sound:example_test_1.mp3]" ∧
    exampleAudioTag (exampleAudioFilesOf "test" audioFix) 1 = " [sound:example_test_2.mp3]") :=
  ⟨by decide, c5_example_audio_pairing "test" audioFix ["E1", "E2"] 0 "E1" (by decide)⟩

/-- Claim C6, counterexample: with headword `"test"` and the audio asset
`word_test.mp3`, the front block contains the headword text twice (once as
the displayed word, once inside the sound-reference filename), refuting
the exactly-once requirement. -/
theorem c6_exactly_once_counterexample :
    (createAnkiFields "test" infoFix ["Front", "Back"] [wordAssetFix]).lookup "Front" =
      some (frontHtml "test" infoFix [wordAssetFix]) ∧
    countOcc "test" (frontHtml "test" infoFix [wordAssetFix]) = 2 :=
  ⟨rfl, by decide⟩

/-- Claim C6, amended: the assembly is a total function that always
returns a field map, and for every word record shape and audio list the
front block contains the headword text at least once (the headword may
additionally occur inside an inline audio filename, so exactly-once does
not hold in general). -/
theorem c6_headword_occurs (w : String) (info : WordInfo) (afs : List AnkiAudioFile) :
    1 ≤ countOcc w (frontHtml w info afs) := by
  unfold countOcc
  simp only [frontHtml, String.data_append, List.append_assoc]
  exact countOccList_append_pos w.data _ _

/-- Claim C7: with the single field name `"Text"` the assembly returns
exactly one entry, keyed `"Text"`, holding the front block, a newline and
the back block, and emits no second field key. -/
theorem c7_single_field_concat (w : String) (info : WordInfo) (afs : List AnkiAudioFile) :
    createAnkiFields w info ["Text"] afs =
      [("Text", frontHtml w info afs ++ "\n" ++ backHtml (sanitizeWord w) info afs)] :=
  rfl

/-- Claim C8: every record successfully returned by the specific-meanings
fetch has `japanese_meaning` equal to exactly the caller-supplied list and
`idiom` forced to the `"N/A"` sentinel, regardless of the upstream
record. -/
theorem c8_specific_meanings_forced (jm : List String) (u : UpstreamContent)
    (r : DynWordInfo)
    (h : getWordInfoWithSpecificMeaningsResult jm u = Except.ok r) :
    r.japanese_meaning = DynField.strList jm ∧ r.idiom = IdiomField.str "N/A" := by
  cases u with
  | noContent => exact absurd h (by simp [getWordInfoWithSpecificMeaningsResult])
  | malformed msg => exact absurd h (by simp [getWordInfoWithSpecificMeaningsResult])
  | parsed d =>
    simp only [getWordInfoWithSpecificMeaningsResult, Except.ok.injEq] at h
    subst h
    refine ⟨?_, rfl⟩
    cases hd : d.english_meaning <;> simp [postProcessWordInfo, hd]

/-- Claim C8, witness: the theorem applied to a concrete parsed record. -/
theorem c8_specific_meanings_forced_witness :
    getWordInfoWithSpecificMeaningsResult ["J1"] (UpstreamContent.parsed emptyDyn) =
      Except.ok specificDynFix ∧
    (specificDynFix.japanese_meaning = DynField.strList ["J1"] ∧
      specificDynFix.idiom = IdiomField.str "N/A") :=
  ⟨rfl,
    c8_specific_meanings_forced ["J1"] (UpstreamContent.parsed emptyDyn) specificDynFix rfl⟩

/-- Claim C9: when the idiom field is the `"N/A"` sentinel, the idiom
section is empty and the back block is exactly the concatenation of the
remaining sections, so no Idiom block appears and the other sections are
unaffected. -/
theorem c9_idiom_suppression (safeWord : String) (info : WordInfo)
    (afs : List AnkiAudioFile) (h : info.idiom = IdiomField.str "N/A") :
    idiomSection info.idiom = "" ∧
    backHtml safeWord info afs =
      englishSection info ++ exampleSection safeWord info afs ++ dividerHtml ++
        japaneseSection info ++ similarSection info.similar_words := by
  rw [h]
  refine ⟨rfl, ?_⟩
  simp only [backHtml]
  rw [h]
  rw [show idiomSection (IdiomField.str "N/A") = "" from rfl]
  rw [str_append_empty]

/-- Claim C9, witness: the suppression theorem at a concrete record whose
idiom field is the sentinel. -/
theorem c9_idiom_suppression_witness :
    infoFix.idiom = IdiomField.str "N/A" ∧
    (idiomSection infoFix.idiom = "" ∧
      backHtml "test" infoFix [] =
        englishSection infoFix ++ exampleSection "test" infoFix [] ++ dividerHtml ++
          japaneseSection infoFix ++ similarSection infoFix.similar_words) :=
  ⟨rfl, c9_idiom_suppression "test" infoFix [] rfl⟩

/-- Claim C10: the assembly reads its arguments without mutating them (the
embedding is a pure function of them) and every key of the returned field
map is an element of the supplied `fieldNames` list. -/
theorem c10_keys_from_field_names (w : String) (info : WordInfo)
    (fieldNames : List String) (afs : List AnkiAudioFile) (k v : String)
    (h : (k, v) ∈ createAnkiFields w info fieldNames afs) : k ∈ fieldNames := by
  simp only [createAnkiFields] at h
  by_cases h2 : 2 ≤ fieldNames.length
  · rw [if_pos h2] at h
    simp only [emitFields] at h
    rcases List.mem_append.mp h with h1 | h1
    · revert h1
      cases hrf : resolvedFront fieldNames with
      | none => intro h1; simp at h1
      | some f =>
        intro h1
        by_cases hf0 : f = ""
        · simp [hf0] at h1
        · simp [hf0] at h1
          obtain ⟨rfl, -⟩ := h1
          exact resolvedFront_mem hrf
    · revert h1
      cases hrb : resolvedBack fieldNames with
      | none => intro h1; simp at h1
      | some b =>
        intro h1
        by_cases hb0 : b = ""
        · simp [hb0] at h1
        · by_cases hc : resolvedFront fieldNames = some b
          · simp [hb0, hc] at h1
          · simp [hb0, hc] at h1
            obtain ⟨rfl, -⟩ := h1
            exact resolvedBack_mem hrb
  · rw [if_neg h2] at h
    revert h
    cases h0 : fieldNames[0]? with
    | none => intro h; simp at h
    | some fd =>
      intro h
      by_cases hfd : fd = ""
      · simp [hfd] at h
      · simp [hfd] at h
        obtain ⟨rfl, -⟩ := h
        exact mem_of_getElemOpt h0

/-- Claim C10, witness: the key theorem applied to the single entry the
assembly emits for the field list `["Text"]`. -/
theorem c10_keys_from_field_names_witness :
    ("Text", frontHtml "test" infoFix [] ++ "\n" ++ backHtml (sanitizeWord "test") infoFix []) ∈
      createAnkiFields "test" infoFix ["Text"] [] ∧
    "Text" ∈ (["Text"] : List String) :=
  ⟨by decide,
    c10_keys_from_field_names "test" infoFix ["Text"] [] "Text"
      (frontHtml "test" infoFix [] ++ "\n" ++ backHtml (sanitizeWord "test") infoFix [])
      (by decide)⟩

end AnkiVocab
